import Mathlib

/-!
Verification development for the `ekskafes` repository: a DXF excavation
diagram generator.  The definitions below shallowly embed the geometry and
rendering pipeline of `src/app.py` (Streamlit variant, millimetre units) and
`src/cli_egsa87_dxf.py` (geo-referenced CLI variant, metre units).  Python
floats are modelled as real numbers; a pandas `NaN` distance is modelled as
`Option.none`.  Everything DXF-side (layers, linetypes, text contents) that
no claim inspects is either dropped or modelled as plain coordinate data.
-/

/-- Styling constants from `src/app.py` lines 23-28 (millimetres). -/
noncomputable def TEXT_HEIGHT_MM : ℝ := 150

/-- Dimension text height, `src/app.py` line 24. -/
noncomputable def DIM_TEXT_HEIGHT_MM : ℝ := 160

/-- Note text height, `src/app.py` line 25. -/
noncomputable def NOTE_TEXT_HEIGHT_MM : ℝ := 150

/-- Offset applied to dimension labels, `src/app.py` line 26. -/
noncomputable def DIM_OFFSET_MM : ℝ := 250

/-- Offset applied to the Greek leg labels, `src/app.py` line 27. -/
noncomputable def LEG_NOTE_OFFSET_MM : ℝ := 200

/-- The four leg labels of a tower (`"a"`, `"b"`, `"c"`, `"d"`). -/
inductive Leg
  | a
  | b
  | c
  | d
deriving DecidableEq, Repr

/-- Fixed leg-to-angle mapping (degrees, CCW from +X), `src/app.py`
lines 31-36 (and identically `src/cli_egsa87_dxf.py` line 10). -/
noncomputable def LEG_ANGLE_DEG : Leg → ℝ
  | .a => 225
  | .b => 135
  | .c => 45
  | .d => 315

/-- Printable name of a leg, used in the NaN error message. -/
def legName : Leg → String
  | .a => "a"
  | .b => "b"
  | .c => "c"
  | .d => "d"

/-- One row of the `diagrams.xlsx` table after `load_table` coercion
(`src/app.py` lines 48-62).  `pd.to_numeric(..., errors="coerce")` turns
non-numeric cells into NaN, modelled here as `none`. -/
structure Row where
  towerType : String
  legType : String
  distToCenter : Option ℝ
  squareSide : Option ℝ

/-- `mm` from `src/app.py` lines 64-65: metres to millimetres. -/
noncomputable def mm (val_m : ℝ) : ℝ := val_m * 1000

/-- `math.radians`: degrees to radians. -/
noncomputable def radians (deg : ℝ) : ℝ := deg * Real.pi / 180

/-- `math.hypot` on two arguments. -/
noncomputable def hypot (x y : ℝ) : ℝ := Real.sqrt (x ^ 2 + y ^ 2)

/-- `square_corners` from `src/app.py` lines 67-71: closed 5-point
axis-aligned square around a centre. -/
noncomputable def square_corners (center_x center_y side_mm : ℝ) :
    List (ℝ × ℝ) :=
  let half := side_mm / 2
  let x0 := center_x - half
  let y0 := center_y - half
  let x1 := center_x + half
  let y1 := center_y + half
  [(x0, y0), (x1, y0), (x1, y1), (x0, y1), (x0, y0)]

/-- `polar_to_cart` from `src/app.py` lines 73-75. -/
noncomputable def polar_to_cart (dist_mm angle_deg : ℝ) : ℝ × ℝ :=
  (dist_mm * Real.cos (radians angle_deg),
   dist_mm * Real.sin (radians angle_deg))

/-- `unit_vec` from `src/app.py` lines 102-104: normalise, or return the
zero vector when the norm is not positive. -/
noncomputable def unit_vec (vx vy : ℝ) : ℝ × ℝ :=
  if 0 < hypot vx vy then (vx / hypot vx vy, vy / hypot vx vy) else (0, 0)

/-- `perp_vec` from `src/app.py` lines 106-108: rotate 90 degrees CCW. -/
noncomputable def perp_vec (vx vy : ℝ) : ℝ × ℝ := (-vy, vx)

/-- Insertion point of a distance-dimension label (`src/app.py`
lines 134-138): midpoint of the origin-to-centre line, offset by
`DIM_OFFSET_MM` along the perpendicular of the line's unit vector. -/
noncomputable def dim_label_pos (c : ℝ × ℝ) : ℝ × ℝ :=
  let m := (c.1 * 0.5, c.2 * 0.5)
  let u := unit_vec c.1 c.2
  let p := perp_vec u.1 u.2
  (m.1 + p.1 * DIM_OFFSET_MM, m.2 + p.2 * DIM_OFFSET_MM)

/-- The offset direction used for a distance-dimension label
(`src/app.py` lines 136-137): perpendicular of the unit vector of the
origin-to-centre line. -/
noncomputable def dim_offset_dir (c : ℝ × ℝ) : ℝ × ℝ :=
  let u := unit_vec c.1 c.2
  perp_vec u.1 u.2

/-- The offset direction used for a leg-note label (`src/app.py`
lines 162-164): perpendicular of the leg's radial direction. -/
noncomputable def leg_note_offset_dir (leg : Leg) : ℝ × ℝ :=
  let ang := radians (LEG_ANGLE_DEG leg)
  perp_vec (Real.cos ang) (Real.sin ang)

/-- Insertion point of a leg-note label (`src/app.py` lines 160-166). -/
noncomputable def leg_note_pos (leg : Leg) (c : ℝ × ℝ) : ℝ × ℝ :=
  let od := leg_note_offset_dir leg
  (c.1 + od.1 * LEG_NOTE_OFFSET_MM, c.2 + od.2 * LEG_NOTE_OFFSET_MM)

/-- Euclidean distance between two points, used to state geometric
properties of the rendered squares. -/
noncomputable def ptDist (p q : ℝ × ℝ) : ℝ :=
  Real.sqrt ((p.1 - q.1) ^ 2 + (p.2 - q.2) ^ 2)

/-- Twice the signed (shoelace) area of a closed polyline; positive for
counter-clockwise orientation. -/
noncomputable def shoelace2 : List (ℝ × ℝ) → ℝ
  | p :: q :: rest => (p.1 * q.2 - q.1 * p.2) + shoelace2 (q :: rest)
  | _ => 0

/-- Conversion lemma: 45 degrees. -/
lemma radians_45 : radians 45 = Real.pi / 4 := by
  unfold radians; ring

/-- Conversion lemma: 90 degrees. -/
lemma radians_90 : radians 90 = Real.pi / 2 := by
  unfold radians; ring

/-- Conversion lemma: 135 degrees. -/
lemma radians_135 : radians 135 = Real.pi - Real.pi / 4 := by
  unfold radians; ring

/-- Conversion lemma: 225 degrees. -/
lemma radians_225 : radians 225 = Real.pi + Real.pi / 4 := by
  unfold radians; ring

/-- Conversion lemma: 315 degrees. -/
lemma radians_315 : radians 315 = 2 * Real.pi - Real.pi / 4 := by
  unfold radians; ring

lemma cos_radians_45 : Real.cos (radians 45) = Real.sqrt 2 / 2 := by
  rw [radians_45, Real.cos_pi_div_four]

lemma sin_radians_45 : Real.sin (radians 45) = Real.sqrt 2 / 2 := by
  rw [radians_45, Real.sin_pi_div_four]

lemma cos_radians_90 : Real.cos (radians 90) = 0 := by
  rw [radians_90, Real.cos_pi_div_two]

lemma sin_radians_90 : Real.sin (radians 90) = 1 := by
  rw [radians_90, Real.sin_pi_div_two]

lemma cos_radians_135 : Real.cos (radians 135) = -(Real.sqrt 2 / 2) := by
  rw [radians_135, Real.cos_pi_sub, Real.cos_pi_div_four]

lemma sin_radians_135 : Real.sin (radians 135) = Real.sqrt 2 / 2 := by
  rw [radians_135, Real.sin_pi_sub, Real.sin_pi_div_four]

lemma cos_radians_225 : Real.cos (radians 225) = -(Real.sqrt 2 / 2) := by
  rw [radians_225, Real.cos_add, Real.cos_pi, Real.sin_pi,
    Real.cos_pi_div_four, Real.sin_pi_div_four]
  ring

lemma sin_radians_225 : Real.sin (radians 225) = -(Real.sqrt 2 / 2) := by
  rw [radians_225, Real.sin_add, Real.cos_pi, Real.sin_pi,
    Real.cos_pi_div_four, Real.sin_pi_div_four]
  ring

lemma cos_radians_315 : Real.cos (radians 315) = Real.sqrt 2 / 2 := by
  rw [radians_315, Real.cos_sub, Real.cos_two_pi, Real.sin_two_pi,
    Real.cos_pi_div_four, Real.sin_pi_div_four]
  ring

lemma sin_radians_315 : Real.sin (radians 315) = -(Real.sqrt 2 / 2) := by
  rw [radians_315, Real.sin_sub, Real.cos_two_pi, Real.sin_two_pi,
    Real.cos_pi_div_four, Real.sin_pi_div_four]
  ring

lemma sqrt_two_pos : (0 : ℝ) < Real.sqrt 2 :=
  Real.sqrt_pos.mpr (by norm_num)

/-- Normalising a positive multiple of a direction on the unit circle
recovers the direction itself. -/
lemma unit_vec_polar (k t : ℝ) (hk : 0 < k) :
    unit_vec (k * Real.cos t) (k * Real.sin t) = (Real.cos t, Real.sin t) := by
  have hsum : (k * Real.cos t) ^ 2 + (k * Real.sin t) ^ 2 = k ^ 2 := by
    have h := Real.sin_sq_add_cos_sq t
    linear_combination k ^ 2 * h
  have hn : hypot (k * Real.cos t) (k * Real.sin t) = k := by
    rw [hypot, hsum, Real.sqrt_sq hk.le]
  rw [unit_vec, hn, if_pos hk, Prod.mk.injEq]
  exact ⟨by field_simp, by field_simp⟩

/-- The entities that `add_annotations` (`src/app.py` lines 116-168) adds
to the modelspace, reduced to coordinate data: construction lines of the
dimension pass, and the insertion points of all text labels in emission
order (dimension labels, then the single side note, then leg notes).
Text contents and char heights are not inspected by any claim and are
not modelled. -/
structure AnnOut where
  lines : List ((ℝ × ℝ) × (ℝ × ℝ))
  texts : List (ℝ × ℝ)

/-- Iteration order of the `centers` dict in `src/app.py` (insertion
order of `sel_rows`, lines 246-251). -/
def legsInOrder : List Leg := [.a, .b, .c, .d]

/-- First present centre in iteration order, mirroring
`next((k, v) for k, v in centers.items() if v is not None)` at
`src/app.py` line 147. -/
noncomputable def firstCenter (centers : Leg → Option (ℝ × ℝ)) :
    Option (ℝ × ℝ) :=
  (legsInOrder.filterMap fun leg => centers leg).head?

/-- Model of `add_annotations` from `src/app.py` lines 116-168. -/
noncomputable def add_annotations_model (centers : Leg → Option (ℝ × ℝ))
    (side_mm : ℝ) : AnnOut :=
  let present := legsInOrder.filterMap fun leg => (centers leg).map (leg, ·)
  let dimLines := present.map fun lc => (((0 : ℝ), (0 : ℝ)), lc.2)
  let dimTexts := present.map fun lc => dim_label_pos lc.2
  let sideNote :=
    match firstCenter centers with
    | none => []
    | some c0 => [(c0.1 - 0.6 * side_mm, c0.2 + 0.6 * side_mm)]
  let legNotes := present.map fun lc => leg_note_pos lc.1 lc.2
  { lines := dimLines, texts := dimTexts ++ sideNote ++ legNotes }

/-- One iteration of the drawing loop in `draw_squares_dxf`
(`src/app.py` lines 177-189): an absent selection contributes no
geometry, a NaN distance raises `ValueError`, otherwise the square's
centre and closed corner polyline are produced. -/
noncomputable def drawLeg (row? : Option Row) (leg : Leg) (side_mm : ℝ) :
    Except String (Option ((ℝ × ℝ) × List (ℝ × ℝ))) :=
  match row? with
  | none => .ok none
  | some row =>
    match row.distToCenter with
    | none => .error ("Distance to Center is NaN for leg " ++ legName leg ++ ".")
    | some dist_m =>
      let dist := mm dist_m
      let c := polar_to_cart dist (LEG_ANGLE_DEG leg)
      .ok (some (c, square_corners c.1 c.2 side_mm))

/-- The drawing document produced by a successful render: per-leg centres,
the square polylines, and the optional annotation entities.  The document
is saved (`doc.saveas`, `src/app.py` line 194) only once this value
exists; an exception escapes before any file is written. -/
structure RenderOut where
  centers : Leg → Option (ℝ × ℝ)
  polylines : List (List (ℝ × ℝ))
  ann : Option AnnOut

/-- Model of `draw_squares_dxf` from `src/app.py` lines 170-195.  The
Python loop runs over the four legs in insertion order and raises on the
first NaN distance; the document is saved only after the loop and the
annotation pass complete. -/
noncomputable def draw_squares_dxf (selected : Leg → Option Row)
    (side_mm : ℝ) (add_dims : Bool) : Except String RenderOut :=
  match drawLeg (selected .a) .a side_mm with
  | .error e => .error e
  | .ok va =>
    match drawLeg (selected .b) .b side_mm with
    | .error e => .error e
    | .ok vb =>
      match drawLeg (selected .c) .c side_mm with
      | .error e => .error e
      | .ok vc =>
        match drawLeg (selected .d) .d side_mm with
        | .error e => .error e
        | .ok vd =>
          let centers : Leg → Option (ℝ × ℝ) := fun l =>
            match l with
            | .a => va.map Prod.fst
            | .b => vb.map Prod.fst
            | .c => vc.map Prod.fst
            | .d => vd.map Prod.fst
          .ok { centers := centers
                polylines := ([va, vb, vc, vd].filterMap id).map Prod.snd
                ann := if add_dims then
                         some (add_annotations_model centers side_mm)
                       else none }

/-- Centres recorded in a render result; `none` both for an absent leg
and for a failed render. -/
noncomputable def renderCenters (res : Except String RenderOut) (leg : Leg) :
    Option (ℝ × ℝ) :=
  match res with
  | .ok out => out.centers leg
  | .error _ => none

/-- Whether the render call wrote an output file: `doc.saveas` runs only
on the success path of `draw_squares_dxf`. -/
def file_written (res : Except String RenderOut) : Bool :=
  match res with
  | .ok _ => true
  | .error _ => false

/-- Predicate: every selected row of a selection carries a numeric
distance (no NaN reaches the drawing loop). -/
def allNumeric (rows : Leg → Option Row) : Prop :=
  ∀ l r, rows l = some r → r.distToCenter ≠ none

/-- Row of the concrete "T1" scenario, leg a: distance 5 m, side 1 m. -/
noncomputable def rowT1a : Row := ⟨"T1", "a", some 5, some 1⟩

/-- Row of the concrete "T1" scenario, leg b: distance 3 m, side 1 m. -/
noncomputable def rowT1b : Row := ⟨"T1", "b", some 3, some 1⟩

/-- Concrete scenario selection: legs a and b chosen, c and d absent. -/
noncomputable def selT1 : Leg → Option Row
  | .a => some rowT1a
  | .b => some rowT1b
  | .c => none
  | .d => none

/-- A selection whose leg a carries a NaN distance. -/
noncomputable def selBad : Leg → Option Row
  | .a => some ⟨"T1", "a", none, some 1⟩
  | _ => none

/-- One row of the table as consumed by the CLI variant
(`src/cli_egsa87_dxf.py` line 104 reads the distance with a plain
`float(...)`, without a NaN guard); distances are modelled as reals,
pandas NaN values are outside this model. -/
structure CliRow where
  legType : String
  distToCenter : ℝ
  squareSide : ℝ

/-- `polar_xy` from `src/cli_egsa87_dxf.py` lines 27-29 (metres). -/
noncomputable def polar_xy (dist_m angle_deg : ℝ) : ℝ × ℝ :=
  (dist_m * Real.cos (radians angle_deg),
   dist_m * Real.sin (radians angle_deg))

/-- `square_corners_local` from `src/cli_egsa87_dxf.py` lines 31-39. -/
noncomputable def square_corners_local (cx cy side_m : ℝ) : List (ℝ × ℝ) :=
  let h := side_m / 2
  [(cx - h, cy - h), (cx + h, cy - h), (cx + h, cy + h), (cx - h, cy + h),
   (cx - h, cy - h)]

/-- `rot_ccw_about_origin` from `src/cli_egsa87_dxf.py` lines 41-44. -/
noncomputable def rot_ccw_about_origin (x y theta_deg_from_x : ℝ) : ℝ × ℝ :=
  let t := radians theta_deg_from_x
  (x * Real.cos t - y * Real.sin t, x * Real.sin t + y * Real.cos t)

/-- Azimuth conversion at `src/cli_egsa87_dxf.py` line 69: clockwise
from North to mathematical CCW from +X. -/
noncomputable def theta_from_x (azimuth : ℝ) : ℝ := 90 - azimuth

/-- Geo-referenced square of one leg (`src/cli_egsa87_dxf.py`
lines 104-114): local polar centre, local axis-aligned corners, then
each corner rotated about the origin and translated to the EGSA-87
origin. -/
noncomputable def cli_leg_square (r : CliRow) (leg : Leg)
    (side_m E0 N0 thetaX : ℝ) : List (ℝ × ℝ) :=
  let c := polar_xy r.distToCenter (LEG_ANGLE_DEG leg)
  (square_corners_local c.1 c.2 side_m).map fun p =>
    let q := rot_ccw_about_origin p.1 p.2 thetaX
    (E0 + q.1, N0 + q.2)

/-- The CLI drawing loop over the requested legs
(`src/cli_egsa87_dxf.py` lines 98-114): a leg without a matching row is
skipped with a warning, every other leg contributes its geo-referenced
square. -/
noncomputable def cli_loop (legs : List Leg) (rowFor : Leg → Option CliRow)
    (side_m E0 N0 thetaX : ℝ) :
    List (Leg × List (ℝ × ℝ)) × List Leg :=
  match legs with
  | [] => ([], [])
  | leg :: rest =>
    let res := cli_loop rest rowFor side_m E0 N0 thetaX
    match rowFor leg with
    | none => (res.1, leg :: res.2)
    | some r =>
      ((leg, cli_leg_square r leg side_m E0 N0 thetaX) :: res.1, res.2)

/-- Result of the CLI render: squares drawn, warnings printed, and
whether `doc.saveas` ran (`src/cli_egsa87_dxf.py` line 123 — it always
does once the loop finishes). -/
structure CliOut where
  squares : List (Leg × List (ℝ × ℝ))
  warnings : List Leg
  saved : Bool

/-- Model of the geometry part of `main` in `src/cli_egsa87_dxf.py`
lines 67-123: convert the azimuth, loop over the requested legs, save. -/
noncomputable def cli_render (legs : List Leg) (rowFor : Leg → Option CliRow)
    (side_m E0 N0 azimuth : ℝ) : CliOut :=
  let thetaX := theta_from_x azimuth
  let res := cli_loop legs rowFor side_m E0 N0 thetaX
  { squares := res.1, warnings := res.2, saved := true }

/-- The world-space centre of one leg's square in the CLI variant:
rotate the local polar centre, then translate to the EGSA-87 origin. -/
noncomputable def worldCenter (E0 N0 azimuth dist_m : ℝ) (leg : Leg) :
    ℝ × ℝ :=
  let c := polar_xy dist_m (LEG_ANGLE_DEG leg)
  let q := rot_ccw_about_origin c.1 c.2 (theta_from_x azimuth)
  (E0 + q.1, N0 + q.2)

/-- Argparse resolution of `--azimuth` (`src/cli_egsa87_dxf.py`
lines 54-55): an omitted flag takes its declared default 0, a supplied
flag takes the supplied value; either way the parsed result is set. -/
def parse_azimuth (flag : Option ℝ) : Option ℝ :=
  match flag with
  | none => some 0
  | some v => some v

/-- The interactive fallback at `src/cli_egsa87_dxf.py` lines 64-65:
when the azimuth is unset the user is prompted and the typed value is
used, otherwise the parsed value stands.  The boolean records whether
the prompt ran. -/
def prompt_if_unset (az : Option ℝ) (typed : ℝ) : ℝ × Bool :=
  match az with
  | none => (typed, true)
  | some v => (v, false)

/-- Cancelling the positive factor `sqrt 2`: if `sqrt 2 * d1 = sqrt 2 * -d2`
for non-negative `d1`, `d2`, then both are zero. -/
lemma eq_zero_of_sqrt_two_neg {d1 d2 : ℝ} (h1 : 0 ≤ d1) (h2 : 0 ≤ d2)
    (h : Real.sqrt 2 * d1 = Real.sqrt 2 * -d2) : d1 = 0 ∧ d2 = 0 := by
  have h12 := mul_left_cancel₀ (ne_of_gt sqrt_two_pos) h
  constructor <;> linarith

/-- C7: `rotateAboutOrigin` preserves the Euclidean norm, and rotating by
`θ` then by `-θ` is the identity. -/
theorem C7_rot_norm_and_roundtrip (x y θ : ℝ) :
    hypot (rot_ccw_about_origin x y θ).1 (rot_ccw_about_origin x y θ).2 =
      hypot x y ∧
    rot_ccw_about_origin (rot_ccw_about_origin x y θ).1
      (rot_ccw_about_origin x y θ).2 (-θ) = (x, y) := by
  have h := Real.sin_sq_add_cos_sq (radians θ)
  have hrad : radians (-θ) = -radians θ := by unfold radians; ring
  constructor
  · simp only [rot_ccw_about_origin, hypot]
    congr 1
    linear_combination (x ^ 2 + y ^ 2) * h
  · simp only [rot_ccw_about_origin, hrad, Real.cos_neg, Real.sin_neg,
      Prod.mk.injEq]
    constructor
    · linear_combination x * h
    · linear_combination y * h

/-- C9: `unit_vec` maps the zero vector to the zero vector instead of
dividing by zero, and any other vector to itself divided by its norm. -/
theorem C9_unit_vec_zero_safe (vx vy : ℝ) (hnz : ¬(vx = 0 ∧ vy = 0)) :
    unit_vec 0 0 = (0, 0) ∧
    unit_vec vx vy = (vx / hypot vx vy, vy / hypot vx vy) := by
  constructor
  · simp [unit_vec, hypot]
  · have hpos : 0 < vx ^ 2 + vy ^ 2 := by
      rcases not_and_or.mp hnz with h | h
      · nlinarith [sq_pos_of_ne_zero h, sq_nonneg vy]
      · nlinarith [sq_pos_of_ne_zero h, sq_nonneg vx]
    have hh : 0 < hypot vx vy := by
      unfold hypot; exact Real.sqrt_pos.mpr hpos
    rw [unit_vec, if_pos hh]

/-- C9 witness: the vector (3,4) is nonzero and is normalised by its
norm. -/
theorem C9_unit_vec_zero_safe_witness :
    ¬((3 : ℝ) = 0 ∧ (4 : ℝ) = 0) ∧
    unit_vec 3 4 = (3 / hypot 3 4, 4 / hypot 3 4) :=
  ⟨by norm_num, (C9_unit_vec_zero_safe 3 4 (by norm_num)).2⟩

/-- C6: the `--azimuth` flag defaults to 0 when omitted, and the
interactive prompt runs exactly when the azimuth is unset, so an omitted
flag yields azimuth 0 without prompting. -/
theorem C6_azimuth_default_and_prompt (az : Option ℝ) (typed : ℝ)
    (hunset : az = none) :
    parse_azimuth none = some 0 ∧
    prompt_if_unset az typed = (typed, true) ∧
    prompt_if_unset (parse_azimuth none) typed = (0, false) := by
  subst hunset
  exact ⟨rfl, rfl, rfl⟩

/-- C6 witness: with the flag omitted and prompt input 37, parsing yields
0, an unset azimuth would be prompted, and the final azimuth is 0 with no
prompt. -/
theorem C6_azimuth_default_and_prompt_witness :
    parse_azimuth none = some 0 ∧
    prompt_if_unset none 37 = (37, true) ∧
    prompt_if_unset (parse_azimuth none) 37 = (0, false) :=
  C6_azimuth_default_and_prompt none 37 rfl

/-- C8: two distinct legs at the fixed angles can only share a local
centre when both distances are zero. -/
theorem C8_distinct_leg_centers (l1 l2 : Leg) (d1 d2 : ℝ) (hne : l1 ≠ l2)
    (h1 : 0 ≤ d1) (h2 : 0 ≤ d2)
    (h : polar_to_cart (mm d1) (LEG_ANGLE_DEG l1) =
         polar_to_cart (mm d2) (LEG_ANGLE_DEG l2)) :
    d1 = 0 ∧ d2 = 0 := by
  cases l1 <;> cases l2 <;>
    simp only [LEG_ANGLE_DEG, polar_to_cart, mm, Prod.mk.injEq] at h <;>
    [skip; skip; skip; skip; skip; skip; skip; skip; skip; skip; skip;
     skip; skip; skip; skip; skip]
  case a.a => exact absurd rfl hne
  case b.b => exact absurd rfl hne
  case c.c => exact absurd rfl hne
  case d.d => exact absurd rfl hne
  case a.b =>
    rw [cos_radians_225, sin_radians_225, cos_radians_135, sin_radians_135]
      at h
    exact eq_zero_of_sqrt_two_neg h1 h2 (by linear_combination (-1/500) * h.2)
  case a.c =>
    rw [cos_radians_225, sin_radians_225, cos_radians_45, sin_radians_45] at h
    exact eq_zero_of_sqrt_two_neg h1 h2 (by linear_combination (-1/500) * h.1)
  case a.d =>
    rw [cos_radians_225, sin_radians_225, cos_radians_315, sin_radians_315]
      at h
    exact eq_zero_of_sqrt_two_neg h1 h2 (by linear_combination (-1/500) * h.1)
  case b.a =>
    rw [cos_radians_135, sin_radians_135, cos_radians_225, sin_radians_225]
      at h
    exact eq_zero_of_sqrt_two_neg h1 h2 (by linear_combination (1/500) * h.2)
  case b.c =>
    rw [cos_radians_135, sin_radians_135, cos_radians_45, sin_radians_45] at h
    exact eq_zero_of_sqrt_two_neg h1 h2 (by linear_combination (-1/500) * h.1)
  case b.d =>
    rw [cos_radians_135, sin_radians_135, cos_radians_315, sin_radians_315]
      at h
    exact eq_zero_of_sqrt_two_neg h1 h2 (by linear_combination (-1/500) * h.1)
  case c.a =>
    rw [cos_radians_45, sin_radians_45, cos_radians_225, sin_radians_225] at h
    exact eq_zero_of_sqrt_two_neg h1 h2 (by linear_combination (1/500) * h.1)
  case c.b =>
    rw [cos_radians_45, sin_radians_45, cos_radians_135, sin_radians_135] at h
    exact eq_zero_of_sqrt_two_neg h1 h2 (by linear_combination (1/500) * h.1)
  case c.d =>
    rw [cos_radians_45, sin_radians_45, cos_radians_315, sin_radians_315] at h
    exact eq_zero_of_sqrt_two_neg h1 h2 (by linear_combination (1/500) * h.2)
  case d.a =>
    rw [cos_radians_315, sin_radians_315, cos_radians_225, sin_radians_225]
      at h
    exact eq_zero_of_sqrt_two_neg h1 h2 (by linear_combination (1/500) * h.1)
  case d.b =>
    rw [cos_radians_315, sin_radians_315, cos_radians_135, sin_radians_135]
      at h
    exact eq_zero_of_sqrt_two_neg h1 h2 (by linear_combination (1/500) * h.1)
  case d.c =>
    rw [cos_radians_315, sin_radians_315, cos_radians_45, sin_radians_45] at h
    exact eq_zero_of_sqrt_two_neg h1 h2 (by linear_combination (-1/500) * h.2)

/-- C8 witness: distinct legs a and b with both distances zero do share
the centre (0,0), and the theorem concludes both distances are zero. -/
theorem C8_distinct_leg_centers_witness :
    Leg.a ≠ Leg.b ∧
    polar_to_cart (mm 0) (LEG_ANGLE_DEG .a) =
      polar_to_cart (mm 0) (LEG_ANGLE_DEG .b) ∧
    ((0 : ℝ) = 0 ∧ (0 : ℝ) = 0) := by
  have hc : polar_to_cart (mm 0) (LEG_ANGLE_DEG .a) =
      polar_to_cart (mm 0) (LEG_ANGLE_DEG .b) := by
    norm_num [polar_to_cart, mm]
  exact ⟨by decide, hc,
    C8_distinct_leg_centers .a .b 0 0 (by decide) le_rfl le_rfl hc⟩

/-- C5 counterexample: for leg a at distance 5 m the dimension-label
offset direction and the leg-note offset direction are the same
direction, not different ones — the centre is a positive multiple of the
radial unit vector, so the perpendicular of its unit vector equals the
perpendicular of the radial direction. -/
theorem C5_offset_dirs_counterexample :
    dim_offset_dir (polar_to_cart (mm 5) (LEG_ANGLE_DEG .a)) =
      leg_note_offset_dir .a := by
  have h5 : (0 : ℝ) < mm 5 := by norm_num [mm]
  have hu := unit_vec_polar (mm 5) (radians (LEG_ANGLE_DEG .a)) h5
  simp only [dim_offset_dir, polar_to_cart]
  rw [hu]
  simp [leg_note_offset_dir]

/-- C5 amended: for every present leg with positive distance, the
dimension-label offset direction equals the leg-note offset direction;
the two labels are separated by anchor point and offset magnitude, not
by direction. -/
theorem C5_offset_dirs_equal (leg : Leg) (d : ℝ) (hd : 0 < d) :
    dim_offset_dir (polar_to_cart (mm d) (LEG_ANGLE_DEG leg)) =
      leg_note_offset_dir leg := by
  have hmm : (0 : ℝ) < mm d := by unfold mm; linarith
  have hu := unit_vec_polar (mm d) (radians (LEG_ANGLE_DEG leg)) hmm
  simp only [dim_offset_dir, polar_to_cart]
  rw [hu]
  simp [leg_note_offset_dir]

/-- C5 witness: leg b at distance 5 m has positive distance and equal
offset directions. -/
theorem C5_offset_dirs_equal_witness :
    (0 : ℝ) < 5 ∧
    dim_offset_dir (polar_to_cart (mm 5) (LEG_ANGLE_DEG .b)) =
      leg_note_offset_dir .b :=
  ⟨by norm_num, C5_offset_dirs_equal .b 5 (by norm_num)⟩

/-- Distance from the centre to a corner of a square with non-negative
side: the square root of half the squared side. -/
lemma sqrt_half_sq (side : ℝ) (hs : 0 ≤ side) :
    Real.sqrt (side ^ 2 / 2) = side * Real.sqrt 2 / 2 := by
  rw [show side ^ 2 / 2 = (side * Real.sqrt 2 / 2) ^ 2 by
    rw [div_pow, mul_pow, Real.sq_sqrt (by norm_num : (0:ℝ) ≤ 2)]; ring]
  exact Real.sqrt_sq (by positivity)

/-- C4 counterexample: with side -2 around the origin, the first corner
returned by `square_corners` lies at distance `sqrt 2` from the centre,
not at the claimed `side * sqrt 2 / 2 = -sqrt 2`; the unrestricted claim
over every side value is false. -/
theorem C4_neg_side_counterexample :
    ptDist ((square_corners 0 0 (-2)).getD 0 (0, 0)) (0, 0) ≠
      (-2) * Real.sqrt 2 / 2 := by
  have h0 : ((square_corners 0 0 (-2)).getD 0 (0, 0)) = (1, 1) := by
    norm_num [square_corners]
  have h1 : ptDist (1, 1) (0, 0) = Real.sqrt 2 := by
    unfold ptDist; norm_num
  rw [h0, h1]
  intro hcontra
  linarith [sqrt_two_pos]

/-- C4 amended: for every centre and every non-negative side,
`square_corners` returns a closed 5-point sequence (first point equals
last), whose four corners all lie at distance `side * sqrt 2 / 2` from
the centre, which starts at the bottom-left corner (minimal in both
coordinates) and winds counter-clockwise (non-negative shoelace area,
equal to `side ^ 2`); the CLI variant `square_corners_local` returns the
identical sequence. -/
theorem C4_square_corners_closed_ccw (cx cy side : ℝ) (hs : 0 ≤ side) :
    (square_corners cx cy side).length = 5 ∧
    (square_corners cx cy side).getD 0 (0, 0) =
      (square_corners cx cy side).getD 4 (0, 0) ∧
    (∀ i, i < 4 →
      ptDist ((square_corners cx cy side).getD i (0, 0)) (cx, cy) =
        side * Real.sqrt 2 / 2) ∧
    (square_corners cx cy side).getD 0 (0, 0) =
      (cx - side / 2, cy - side / 2) ∧
    (∀ p ∈ square_corners cx cy side,
      cx - side / 2 ≤ p.1 ∧ cy - side / 2 ≤ p.2) ∧
    shoelace2 (square_corners cx cy side) = 2 * side ^ 2 ∧
    square_corners_local cx cy side = square_corners cx cy side := by
  refine ⟨rfl, rfl, ?_, rfl, ?_, ?_, rfl⟩
  · intro i hi
    interval_cases i
    · show ptDist (cx - side / 2, cy - side / 2) (cx, cy) = _
      unfold ptDist
      rw [show (cx - side / 2 - cx) ^ 2 + (cy - side / 2 - cy) ^ 2 =
        side ^ 2 / 2 by ring]
      exact sqrt_half_sq side hs
    · show ptDist (cx + side / 2, cy - side / 2) (cx, cy) = _
      unfold ptDist
      rw [show (cx + side / 2 - cx) ^ 2 + (cy - side / 2 - cy) ^ 2 =
        side ^ 2 / 2 by ring]
      exact sqrt_half_sq side hs
    · show ptDist (cx + side / 2, cy + side / 2) (cx, cy) = _
      unfold ptDist
      rw [show (cx + side / 2 - cx) ^ 2 + (cy + side / 2 - cy) ^ 2 =
        side ^ 2 / 2 by ring]
      exact sqrt_half_sq side hs
    · show ptDist (cx - side / 2, cy + side / 2) (cx, cy) = _
      unfold ptDist
      rw [show (cx - side / 2 - cx) ^ 2 + (cy + side / 2 - cy) ^ 2 =
        side ^ 2 / 2 by ring]
      exact sqrt_half_sq side hs
  · intro p hp
    simp only [square_corners, List.mem_cons, List.not_mem_nil, or_false]
      at hp
    rcases hp with rfl | rfl | rfl | rfl | rfl <;> refine ⟨?_, ?_⟩ <;>
      simp <;> linarith
  · simp only [square_corners, shoelace2]
    ring

/-- C4 witness: the square of side 2 around the origin satisfies every
conjunct of the amended statement. -/
theorem C4_square_corners_closed_ccw_witness :
    (0 : ℝ) ≤ 2 ∧
    ((square_corners 0 0 2).length = 5 ∧
     (square_corners 0 0 2).getD 0 (0, 0) =
       (square_corners 0 0 2).getD 4 (0, 0) ∧
     (∀ i, i < 4 →
       ptDist ((square_corners 0 0 2).getD i (0, 0)) (0, 0) =
         2 * Real.sqrt 2 / 2) ∧
     (square_corners 0 0 2).getD 0 (0, 0) = (0 - 2 / 2, 0 - 2 / 2) ∧
     (∀ p ∈ square_corners 0 0 2,
       (0 : ℝ) - 2 / 2 ≤ p.1 ∧ (0 : ℝ) - 2 / 2 ≤ p.2) ∧
     shoelace2 (square_corners 0 0 2) = 2 * 2 ^ 2 ∧
     square_corners_local 0 0 2 = square_corners 0 0 2) :=
  ⟨by norm_num, C4_square_corners_closed_ccw 0 0 2 (by norm_num)⟩

/-- The loop step succeeds on any selection whose row, if present,
carries a numeric distance. -/
lemma drawLeg_ok (row? : Option Row) (leg : Leg) (side : ℝ)
    (h : ∀ r, row? = some r → r.distToCenter ≠ none) :
    ∃ v, drawLeg row? leg side = .ok v := by
  match row? with
  | none => exact ⟨none, rfl⟩
  | some r =>
    match hd : r.distToCenter with
    | none => exact absurd hd (h r rfl)
    | some d =>
      refine ⟨some (polar_to_cart (mm d) (LEG_ANGLE_DEG leg),
        square_corners (polar_to_cart (mm d) (LEG_ANGLE_DEG leg)).1
          (polar_to_cart (mm d) (LEG_ANGLE_DEG leg)).2 side), ?_⟩
      simp [drawLeg, hd]

/-- The loop step on a present row with numeric distance produces the
polar centre and its square. -/
lemma drawLeg_some (row? : Option Row) (r : Row) (d : ℝ) (leg : Leg)
    (side : ℝ) (hr : row? = some r) (hd : r.distToCenter = some d) :
    drawLeg row? leg side =
      .ok (some (polar_to_cart (mm d) (LEG_ANGLE_DEG leg),
        square_corners (polar_to_cart (mm d) (LEG_ANGLE_DEG leg)).1
          (polar_to_cart (mm d) (LEG_ANGLE_DEG leg)).2 side)) := by
  subst hr
  simp [drawLeg, hd]

/-- C1: in a render where every selected distance is numeric, each
selected leg's local centre is `(1000*d*cos t, 1000*d*sin t)` with `t`
the leg's fixed angle; in particular the "T1" scenario (leg a at 5 m,
leg b at 3 m, side 1 m) yields centres `5000*(cos 225°, sin 225°)` and
`3000*(cos 135°, sin 135°)` millimetres. -/
theorem C1_local_center (rows : Leg → Option Row) (side : ℝ) (ann : Bool)
    (leg : Leg) (r : Row) (d : ℝ) (hrow : rows leg = some r)
    (hd : r.distToCenter = some d) (hall : allNumeric rows) :
    renderCenters (draw_squares_dxf rows side ann) leg =
      some (1000 * d * Real.cos (radians (LEG_ANGLE_DEG leg)),
            1000 * d * Real.sin (radians (LEG_ANGLE_DEG leg))) ∧
    renderCenters (draw_squares_dxf selT1 (mm 1) true) .a =
      some (5000 * Real.cos (radians 225), 5000 * Real.sin (radians 225)) ∧
    renderCenters (draw_squares_dxf selT1 (mm 1) true) .b =
      some (3000 * Real.cos (radians 135), 3000 * Real.sin (radians 135)) := by
  have hcenter : polar_to_cart (mm d) (LEG_ANGLE_DEG leg) =
      (1000 * d * Real.cos (radians (LEG_ANGLE_DEG leg)),
       1000 * d * Real.sin (radians (LEG_ANGLE_DEG leg))) := by
    unfold polar_to_cart mm
    rw [Prod.mk.injEq]
    exact ⟨by ring, by ring⟩
  have hT1a := drawLeg_some (selT1 .a) rowT1a 5 .a (mm 1) rfl rfl
  have hT1b := drawLeg_some (selT1 .b) rowT1b 3 .b (mm 1) rfl rfl
  have hT1c : drawLeg (selT1 .c) .c (mm 1) = .ok none := rfl
  have hT1d : drawLeg (selT1 .d) .d (mm 1) = .ok none := rfl
  refine ⟨?_, ?_, ?_⟩
  · obtain ⟨va, hva⟩ := drawLeg_ok (rows .a) .a side (fun r h => hall .a r h)
    obtain ⟨vb, hvb⟩ := drawLeg_ok (rows .b) .b side (fun r h => hall .b r h)
    obtain ⟨vc, hvc⟩ := drawLeg_ok (rows .c) .c side (fun r h => hall .c r h)
    obtain ⟨vd, hvd⟩ := drawLeg_ok (rows .d) .d side (fun r h => hall .d r h)
    cases leg with
    | a =>
      have ha := drawLeg_some (rows .a) r d .a side hrow hd
      simp only [draw_squares_dxf, ha, hvb, hvc, hvd, renderCenters,
        Option.map_some']
      simp [hcenter]
    | b =>
      have hb := drawLeg_some (rows .b) r d .b side hrow hd
      simp only [draw_squares_dxf, hva, hb, hvc, hvd, renderCenters,
        Option.map_some']
      simp [hcenter]
    | c =>
      have hc := drawLeg_some (rows .c) r d .c side hrow hd
      simp only [draw_squares_dxf, hva, hvb, hc, hvd, renderCenters,
        Option.map_some']
      simp [hcenter]
    | d =>
      have hd' := drawLeg_some (rows .d) r d .d side hrow hd
      simp only [draw_squares_dxf, hva, hvb, hvc, hd', renderCenters,
        Option.map_some']
      simp [hcenter]
  · simp only [draw_squares_dxf, hT1a, hT1b, hT1c, hT1d, renderCenters,
      Option.map_some']
    simp only [polar_to_cart, mm, LEG_ANGLE_DEG]
    norm_num
  · simp only [draw_squares_dxf, hT1a, hT1b, hT1c, hT1d, renderCenters,
      Option.map_some']
    simp only [polar_to_cart, mm, LEG_ANGLE_DEG]
    norm_num

/-- C1 witness: the "T1" selection is all numeric and leg a's centre is
at `1000 * 5` millimetres along the 225-degree direction. -/
theorem C1_local_center_witness :
    allNumeric selT1 ∧
    renderCenters (draw_squares_dxf selT1 (mm 1) true) .a =
      some (1000 * 5 * Real.cos (radians (LEG_ANGLE_DEG .a)),
            1000 * 5 * Real.sin (radians (LEG_ANGLE_DEG .a))) := by
  have hall : allNumeric selT1 := by
    intro l r h
    cases l <;> simp_all [selT1, rowT1a, rowT1b] <;> subst h <;> simp
  exact ⟨hall,
    (C1_local_center selT1 (mm 1) true .a rowT1a 5 rfl rfl hall).1⟩

/-- C3: a selected leg whose distance is NaN makes the render raise the
descriptive `ValueError` before the document is saved, so no output file
is written. -/
theorem C3_nan_distance_aborts (rows : Leg → Option Row) (side : ℝ)
    (ann : Bool) (leg : Leg) (r : Row) (hrow : rows leg = some r)
    (hnan : r.distToCenter = none) :
    (∃ e, draw_squares_dxf rows side ann = .error e) ∧
    file_written (draw_squares_dxf rows side ann) = false := by
  have hl : drawLeg (rows leg) leg side =
      .error ("Distance to Center is NaN for leg " ++ legName leg ++ ".") := by
    rw [hrow]
    simp [drawLeg, hnan]
  have herr : ∃ e, draw_squares_dxf rows side ann = .error e := by
    cases leg with
    | a =>
      have h : draw_squares_dxf rows side ann =
          .error ("Distance to Center is NaN for leg " ++ legName .a ++ ".") := by
        simp only [draw_squares_dxf, hl]
      exact ⟨_, h⟩
    | b =>
      cases hA : drawLeg (rows .a) .a side with
      | error e =>
        exact ⟨e, by simp only [draw_squares_dxf, hA]⟩
      | ok va =>
        have h : draw_squares_dxf rows side ann =
            .error ("Distance to Center is NaN for leg " ++ legName .b ++ ".") := by
          simp only [draw_squares_dxf, hA, hl]
        exact ⟨_, h⟩
    | c =>
      cases hA : drawLeg (rows .a) .a side with
      | error e => exact ⟨e, by simp only [draw_squares_dxf, hA]⟩
      | ok va =>
        cases hB : drawLeg (rows .b) .b side with
        | error e => exact ⟨e, by simp only [draw_squares_dxf, hA, hB]⟩
        | ok vb =>
          have h : draw_squares_dxf rows side ann =
              .error ("Distance to Center is NaN for leg " ++ legName .c ++ ".") := by
            simp only [draw_squares_dxf, hA, hB, hl]
          exact ⟨_, h⟩
    | d =>
      cases hA : drawLeg (rows .a) .a side with
      | error e => exact ⟨e, by simp only [draw_squares_dxf, hA]⟩
      | ok va =>
        cases hB : drawLeg (rows .b) .b side with
        | error e => exact ⟨e, by simp only [draw_squares_dxf, hA, hB]⟩
        | ok vb =>
          cases hC : drawLeg (rows .c) .c side with
          | error e => exact ⟨e, by simp only [draw_squares_dxf, hA, hB, hC]⟩
          | ok vc =>
            have h : draw_squares_dxf rows side ann =
                .error ("Distance to Center is NaN for leg " ++ legName .d ++ ".") := by
              simp only [draw_squares_dxf, hA, hB, hC, hl]
            exact ⟨_, h⟩
  obtain ⟨e, he⟩ := herr
  refine ⟨⟨e, he⟩, ?_⟩
  rw [he]
  rfl

/-- C3 witness: a selection whose leg a has NaN distance renders to an
error and writes no file. -/
theorem C3_nan_distance_aborts_witness :
    selBad .a = some ⟨"T1", "a", none, some 1⟩ ∧
    (∃ e, draw_squares_dxf selBad 1000 true = .error e) ∧
    file_written (draw_squares_dxf selBad 1000 true) = false := by
  have h := C3_nan_distance_aborts selBad 1000 true .a
    ⟨"T1", "a", none, some 1⟩ rfl rfl
  exact ⟨rfl, h.1, h.2⟩

/-- Rational lower bound on the square root of two. -/
lemma sqrt_two_gt : (1.41421 : ℝ) < Real.sqrt 2 :=
  (Real.lt_sqrt (by norm_num)).mpr (by norm_num)

/-- Rational upper bound on the square root of two. -/
lemma sqrt_two_lt : Real.sqrt 2 < 1.41422 :=
  (Real.sqrt_lt' (by norm_num)).mpr (by norm_num)

/-- World-space transform of one local corner, as the spec words it:
rotate about the origin by `90 - azimuth` degrees, then translate by the
EGSA-87 origin. -/
noncomputable def geo_of_corner (E0 N0 az : ℝ) (corner : ℝ × ℝ) : ℝ × ℝ :=
  (E0 + (rot_ccw_about_origin corner.1 corner.2 (90 - az)).1,
   N0 + (rot_ccw_about_origin corner.1 corner.2 (90 - az)).2)

/-- Geo-referenced square of the concrete scenario: leg a, distance 5 m,
side 1 m, origin (500000, 4500000), azimuth 0. -/
noncomputable def ptsT1aGeo : List (ℝ × ℝ) :=
  cli_leg_square ⟨"a", 5, 1⟩ .a 1 500000 4500000 (theta_from_x 0)

/-- C2: each corner emitted by the geo-referenced variant is the local
corner rotated about the origin by `90 - azimuth` degrees and translated
by (Easting, Northing); in the concrete scenario (E=500000, N=4500000,
azimuth 0, leg a, distance 5, side 1) the world centre is exactly
`(500000 + 5*sqrt 2/2, 4500000 - 5*sqrt 2/2)`, within 0.01 of
`(500003.54, 4499996.46)`, and coincides with the midpoint of the
rendered square's diagonal. -/
theorem C2_geo_rotate_translate (rr : CliRow) (leg : Leg)
    (side E0 N0 az : ℝ) (i : ℕ) (hi : i < 5) :
    (cli_leg_square rr leg side E0 N0 (theta_from_x az)).getD i (0, 0) =
      geo_of_corner E0 N0 az
        ((square_corners_local
            (polar_xy rr.distToCenter (LEG_ANGLE_DEG leg)).1
            (polar_xy rr.distToCenter (LEG_ANGLE_DEG leg)).2
            side).getD i (0, 0)) ∧
    worldCenter 500000 4500000 0 5 .a =
      (500000 + 5 * Real.sqrt 2 / 2, 4500000 - 5 * Real.sqrt 2 / 2) ∧
    |(worldCenter 500000 4500000 0 5 .a).1 - 500003.54| < 0.01 ∧
    |(worldCenter 500000 4500000 0 5 .a).2 - 4499996.46| < 0.01 ∧
    (((ptsT1aGeo.getD 0 (0, 0)).1 + (ptsT1aGeo.getD 2 (0, 0)).1) / 2,
     ((ptsT1aGeo.getD 0 (0, 0)).2 + (ptsT1aGeo.getD 2 (0, 0)).2) / 2) =
      worldCenter 500000 4500000 0 5 .a := by
  have hwc : worldCenter 500000 4500000 0 5 .a =
      (500000 + 5 * Real.sqrt 2 / 2, 4500000 - 5 * Real.sqrt 2 / 2) := by
    simp only [worldCenter, polar_xy, rot_ccw_about_origin, theta_from_x,
      LEG_ANGLE_DEG]
    rw [show (90 : ℝ) - 0 = 90 by norm_num, cos_radians_90, sin_radians_90,
      cos_radians_225, sin_radians_225, Prod.mk.injEq]
    exact ⟨by ring, by ring⟩
  refine ⟨?_, hwc, ?_, ?_, ?_⟩
  · interval_cases i <;> rfl
  · rw [hwc]
    rw [show ((500000 + 5 * Real.sqrt 2 / 2, 4500000 - 5 * Real.sqrt 2 / 2) :
      ℝ × ℝ).1 = 500000 + 5 * Real.sqrt 2 / 2 from rfl, abs_lt]
    constructor <;> linarith [sqrt_two_gt, sqrt_two_lt]
  · rw [hwc]
    rw [show ((500000 + 5 * Real.sqrt 2 / 2, 4500000 - 5 * Real.sqrt 2 / 2) :
      ℝ × ℝ).2 = 4500000 - 5 * Real.sqrt 2 / 2 from rfl, abs_lt]
    constructor <;> linarith [sqrt_two_gt, sqrt_two_lt]
  · simp only [ptsT1aGeo, cli_leg_square, square_corners_local, polar_xy,
      rot_ccw_about_origin, worldCenter, theta_from_x, LEG_ANGLE_DEG,
      List.map_cons, List.getD_cons_zero, List.getD_cons_succ,
      Prod.mk.injEq]
    exact ⟨by ring, by ring⟩

/-- C2 witness: corner 0 of the concrete scenario satisfies the
rotate-then-translate equation, and the world centre equals the exact
closed form. -/
theorem C2_geo_rotate_translate_witness :
    (0 : ℕ) < 5 ∧
    worldCenter 500000 4500000 0 5 .a =
      (500000 + 5 * Real.sqrt 2 / 2, 4500000 - 5 * Real.sqrt 2 / 2) :=
  ⟨by norm_num,
    (C2_geo_rotate_translate ⟨"a", 5, 1⟩ .a 1 500000 4500000 0 0
      (by norm_num)).2.1⟩

/-- A requested leg without a matching row ends up in the warning list. -/
lemma cli_loop_warn (legs : List Leg) (rowFor : Leg → Option CliRow)
    (s e n t : ℝ) (leg : Leg) (hmem : leg ∈ legs)
    (hnone : rowFor leg = none) :
    leg ∈ (cli_loop legs rowFor s e n t).2 := by
  induction legs with
  | nil => cases hmem
  | cons l rest ih =>
    rcases List.mem_cons.mp hmem with rfl | hmem'
    · simp [cli_loop, hnone]
    · cases hr : rowFor l with
      | none =>
        simp only [cli_loop, hr]
        exact List.mem_cons_of_mem _ (ih hmem')
      | some rr =>
        simp only [cli_loop, hr]
        exact ih hmem'

/-- A requested leg without a matching row contributes no square. -/
lemma cli_loop_no_square (legs : List Leg) (rowFor : Leg → Option CliRow)
    (s e n t : ℝ) (leg : Leg) (pts : List (ℝ × ℝ))
    (hnone : rowFor leg = none) :
    (leg, pts) ∉ (cli_loop legs rowFor s e n t).1 := by
  induction legs with
  | nil => simp [cli_loop]
  | cons l rest ih =>
    cases hr : rowFor l with
    | none => simpa only [cli_loop, hr] using ih
    | some rr =>
      simp only [cli_loop, hr]
      intro hmem
      rcases List.mem_cons.mp hmem with heq | hmem'
      · injection heq with h1 h2
        subst h1
        rw [hnone] at hr
        cases hr
      · exact ih hmem'

/-- When every requested leg lacks a row, no square at all is drawn. -/
lemma cli_loop_all_skipped (legs : List Leg) (rowFor : Leg → Option CliRow)
    (s e n t : ℝ) (h : ∀ leg ∈ legs, rowFor leg = none) :
    (cli_loop legs rowFor s e n t).1 = [] := by
  induction legs with
  | nil => rfl
  | cons l rest ih =>
    have hl := h l (List.mem_cons_self l rest)
    simp only [cli_loop, hl]
    exact ih fun leg hm => h leg (List.mem_cons_of_mem l hm)

/-- C10: in the CLI variant a requested leg without a matching row is
skipped with a warning instead of aborting — the file is still saved —
and when every requested leg is skipped, the saved file contains no
squares. -/
theorem C10_missing_row_skipped (legs : List Leg)
    (rowFor : Leg → Option CliRow) (side E0 N0 az : ℝ) :
    (cli_render legs rowFor side E0 N0 az).saved = true ∧
    (∀ leg ∈ legs, rowFor leg = none →
      leg ∈ (cli_render legs rowFor side E0 N0 az).warnings ∧
      ∀ pts, (leg, pts) ∉ (cli_render legs rowFor side E0 N0 az).squares) ∧
    ((∀ leg ∈ legs, rowFor leg = none) →
      (cli_render legs rowFor side E0 N0 az).squares = []) := by
  refine ⟨rfl, ?_, ?_⟩
  · intro leg hmem hnone
    exact ⟨cli_loop_warn legs rowFor side E0 N0 (theta_from_x az) leg hmem
        hnone,
      fun pts => cli_loop_no_square legs rowFor side E0 N0 (theta_from_x az)
        leg pts hnone⟩
  · intro h
    exact cli_loop_all_skipped legs rowFor side E0 N0 (theta_from_x az) h

/-- C10 witness: requesting only leg a with no matching row still saves,
warns about leg a, and draws no squares. -/
theorem C10_missing_row_skipped_witness :
    (cli_render [Leg.a] (fun _ => none) 1 0 0 0).saved = true ∧
    Leg.a ∈ (cli_render [Leg.a] (fun _ => none) 1 0 0 0).warnings ∧
    (cli_render [Leg.a] (fun _ => none) 1 0 0 0).squares = [] := by
  have h := C10_missing_row_skipped [Leg.a] (fun _ => none) 1 0 0 0
  exact ⟨h.1, (h.2.1 .a (List.mem_singleton.mpr rfl) rfl).1,
    h.2.2 fun leg hm => rfl⟩
